import Mathlib

/-!
Lean model of the Juejin booklet scraper (`src/main.py`).

The Python source is shallowly embedded as executable Lean definitions:

* Python strings are `String` (operated on through their `.data` character
  lists, since the scraper works code-point-wise);
* the HTTP layer is a parameter `fetch : String → Option FetchResponse`
  (`none` models a `requests.RequestException`, including HTTP error
  statuses surfaced by `raise_for_status`);
* the MD5 hex digest truncated to 8 characters used by
  `ImageDownloader._generate_filename` is a parameter
  `md5hex8 : String → String`;
* Python dicts are association lists with Python's insertion-order /
  overwrite semantics, or (for the results dict that is only read through
  `.get`) a total function updated per assignment;
* the two `re.findall` patterns of `extract_and_download_images` are
  implemented as deterministic character scanners with the exact
  backtracking semantics of those regexes; recursive scanners take an
  explicit fuel argument (always called with fuel larger than the input
  length, so the fuel never runs out) to keep them structurally recursive.
-/

/-- The characters removed by Python's default `str.strip()` (ASCII range,
which is all the scraper's inputs use). -/
def pythonIsSpace (c : Char) : Bool :=
  c = ' ' || c = '\t' || c = '\n' || c = '\r' || c = '\x0b' || c = '\x0c'

/-- Python `str.strip()` on a character list. -/
def pyStripList (l : List Char) : List Char :=
  ((l.dropWhile pythonIsSpace).reverse.dropWhile pythonIsSpace).reverse

/-- Python `str.strip()`. -/
def pyStrip (s : String) : String :=
  ⟨pyStripList s.data⟩

/-- Python `pat in s` substring test on character lists. -/
def listIsSubstr (pat l : List Char) : Bool :=
  l.tails.any (fun t => pat.isPrefixOf t)

/-- Python `pat in s` substring test. -/
def strContainsSub (s pat : String) : Bool :=
  listIsSubstr pat.data s.data

/-- Python `str.lower()` (ASCII case only, which is all that reaches it:
file extensions). -/
def pyLower (s : String) : String :=
  ⟨s.data.map Char.toLower⟩

/-- Python `s.startswith(p)`. -/
def pyStartsWith (s p : String) : Bool :=
  p.data.isPrefixOf s.data

/-- Python `s.split(sep)` for a single-character separator (used as
`path.split` on a dot). -/
def pySplitOnChar (sep : Char) : List Char → List (List Char)
  | [] => [[]]
  | c :: rest =>
    let r := pySplitOnChar sep rest
    if c = sep then [] :: r
    else
      match r with
      | [] => [[c]]
      | g :: gs => (c :: g) :: gs

/-- Python `str.replace(old, new)`: left-to-right, non-overlapping, the
replacement text is not rescanned.  Structural recursion on `fuel`; callers
supply `fuel > s.length` so it never runs out.  (`old` is never empty at the
call sites: the patterns all start with a literal.) -/
def replaceAllGo (old new : List Char) : Nat → List Char → List Char
  | 0, s => s
  | _ + 1, [] => []
  | fuel + 1, c :: rest =>
    if old.isPrefixOf (c :: rest) then
      new ++ replaceAllGo old new fuel ((c :: rest).drop old.length)
    else
      c :: replaceAllGo old new fuel rest

/-- Python `s.replace(old, new)` (the empty-`old` case never occurs at the
call sites and is returned unchanged). -/
def pyReplace (s old new : String) : String :=
  if old.data.isEmpty then s
  else ⟨replaceAllGo old.data new.data (s.data.length + 1) s.data⟩

/-- Model of `BookletScraper._sanitize_filename`: replace the Windows-illegal
characters by `_`, strip surrounding whitespace, substitute `untitled` for
an empty result, and truncate to 100 characters. -/
def illegalFilenameChar (c : Char) : Bool :=
  c = '<' || c = '>' || c = ':' || c = '"' || c = '/' || c = '\\' ||
  c = '|' || c = '?' || c = '*'

/-- The character replacement step of `_sanitize_filename`
(the `re.sub` that maps each of the illegal characters to an underscore). -/
def replaceIllegal (l : List Char) : List Char :=
  l.map (fun c => if illegalFilenameChar c then '_' else c)

/-- Model of `BookletScraper._sanitize_filename`. -/
def sanitizeFilename (filename : String) : String :=
  let stripped := pyStripList (replaceIllegal filename.data)
  let safe := if stripped.isEmpty then "untitled".data else stripped
  ⟨if safe.length > 100 then safe.take 100 else safe⟩

/-- Python `f"{n:03d}"` for a natural number: the decimal representation,
zero-padded on the left to width 3. -/
def pad3 (n : Nat) : String :=
  if n < 1000 then
    ⟨[Nat.digitChar (n / 100), Nat.digitChar (n / 10 % 10), Nat.digitChar (n % 10)]⟩
  else Nat.repr n

/-- The file name used by `_write_section_to_separate_file`:
`f"{index:03d}_{safe_title}.md"`. -/
def separateFileName (index : Nat) (title : String) : String :=
  pad3 index ++ "_" ++ sanitizeFilename title ++ ".md"

/-- A successful HTTP response for an image request; `contentType` is the
`content-type` header (the empty string when the header is missing). -/
structure FetchResponse where
  contentType : String
deriving DecidableEq

/-- The mutable state of an `ImageDownloader`: its `downloaded_images`
cache (a Python dict mapping a URL to the local relative path), plus
instrumentation recording each successful download and each logged
download-failure warning. -/
structure DownloaderState where
  downloadedImages : List (String × String)
  downloads : List String
  warnings : List String
deriving DecidableEq

/-- The state of a freshly constructed `ImageDownloader`
(`self.downloaded_images = {}`). -/
def initDownloader : DownloaderState :=
  { downloadedImages := [], downloads := [], warnings := [] }

/-- Python `d.get(k)` on a dict represented as an association list with
unique keys: `none` when the key is missing. -/
def dictGet {α : Type} (d : List (String × α)) (k : String) : Option α :=
  (d.find? (fun p => p.1 == k)).map (fun p => p.2)

/-- Python `d[k] = v`: overwrite in place when the key exists (keeping its
insertion position), append otherwise. -/
def pyDictInsert {α : Type} (d : List (String × α)) (kv : String × α) :
    List (String × α) :=
  if d.any (fun p => p.1 == kv.1) then
    d.map (fun p => if p.1 == kv.1 then (p.1, kv.2) else p)
  else d ++ [kv]

/-- A Python dict built from a sequence of key/value pairs (what the dict
comprehension in `get_booklet_sections` does): first occurrence fixes the
position, last occurrence fixes the value. -/
def pyDictOf {α : Type} (l : List (String × α)) : List (String × α) :=
  l.foldl pyDictInsert []

/-- Model of `urllib.parse.urljoin("https://juejin.cn/", url)` for the URL shapes
the scraper passes it (a URL without an `http(s)` scheme): scheme-relative
`//…` URLs get the base scheme, absolute paths are resolved against the
host, and any other relative reference is resolved against the base path
`/`. -/
def pyUrljoinJuejin (url : String) : String :=
  if pyStartsWith url "//" then "https:" ++ url
  else if pyStartsWith url "/" then "https://juejin.cn" ++ url
  else "https://juejin.cn/" ++ url

/-- The URL normalisation in `download_image`: URLs not starting with
`http://` or `https://` are joined onto `https://juejin.cn/`. -/
def resolveUrl (url : String) : String :=
  if pyStartsWith url "http://" || pyStartsWith url "https://" then url
  else pyUrljoinJuejin url

/-- Model of `urllib.parse.urlparse(url).path` for the URL shapes reaching
`_get_image_extension`: the fragment and query are cut off; if the URL has
a `://`, the path starts at the first `/` after the authority, otherwise
the whole remainder is the path. -/
def pyUrlparsePath (url : String) : String :=
  let noQuery := (url.data.takeWhile (· ≠ '#')).takeWhile (· ≠ '?')
  if listIsSubstr "://".data noQuery then
    ⟨((noQuery.tails.find? (fun t => "://".data.isPrefixOf t)).getD []).drop 3
      |>.dropWhile (· ≠ '/')⟩
  else ⟨noQuery⟩

/-- Model of `ImageDownloader._get_image_extension`. -/
def getImageExtension (url : String) (contentType : String) : String :=
  if !contentType.data.isEmpty && (strContainsSub contentType "jpeg" || strContainsSub contentType "jpg") then ".jpg"
  else if !contentType.data.isEmpty && strContainsSub contentType "png" then ".png"
  else if !contentType.data.isEmpty && strContainsSub contentType "gif" then ".gif"
  else if !contentType.data.isEmpty && strContainsSub contentType "webp" then ".webp"
  else
    let path := pyUrlparsePath url
    if path.data.contains '.' then
      let ext := pyLower ⟨((pySplitOnChar '.' path.data).getLast?).getD []⟩
      if ext = "jpg" || ext = "jpeg" || ext = "png" || ext = "gif" || ext = "webp" || ext = "svg" then
        "." ++ ext
      else ".jpg"
    else ".jpg"

/-- Model of `ImageDownloader.download_image`.  Note the source's cache-key
asymmetry, reproduced here: the cache is consulted with the incoming `url`,
but `url` is reassigned to the resolved URL before the cache entry is
stored, so the stored key is the resolved URL. -/
def downloadImage (md5hex8 : String → String)
    (fetch : String → Option FetchResponse)
    (st : DownloaderState) (url : String) : Option String × DownloaderState :=
  match dictGet st.downloadedImages url with
  | some p => (some p, st)
  | none =>
    let resolved := resolveUrl url
    match fetch resolved with
    | none => (none, { st with warnings := st.warnings ++ [resolved] })
    | some resp =>
      let ext := getImageExtension resolved resp.contentType
      let filename := "image_" ++ md5hex8 resolved ++ ext
      let relativePath := "img/" ++ filename
      (some relativePath,
        { st with
          downloadedImages := pyDictInsert st.downloadedImages (resolved, relativePath)
          downloads := st.downloads ++ [resolved] })

/-- One attempt of the regex `!\[([^\]]*)\]\(([^)]+)\)` at the head of the
input: returns the two captures (alt text, URL) and the remainder after the
match.  The negated character classes make the regex deterministic: the alt
text runs to the first `]`, the URL (nonempty) to the first `)`. -/
def mdTryMatch (l : List Char) : Option (List Char × List Char × List Char) :=
  match l with
  | '!' :: '[' :: r =>
    let alt := r.takeWhile (· ≠ ']')
    match r.dropWhile (· ≠ ']') with
    | ']' :: '(' :: r2 =>
      let url := r2.takeWhile (· ≠ ')')
      match url, r2.dropWhile (· ≠ ')') with
      | _ :: _, ')' :: rem => some (alt, url, rem)
      | _, _ => none
    | _ => none
  | _ => none

/-- Model of `re.findall` for the markdown image pattern: scan left to right, on a
match continue after it, otherwise advance one character.  `fuel` is
supplied larger than the input length and never runs out. -/
def mdFindAllGo : Nat → List Char → List (List Char × List Char)
  | 0, _ => []
  | _ + 1, [] => []
  | fuel + 1, c :: rest =>
    match mdTryMatch (c :: rest) with
    | some (alt, url, rem) => (alt, url) :: mdFindAllGo fuel rem
    | none => mdFindAllGo fuel rest

/-- Model of `re.findall` with the pattern `!\[([^\]]*)\]\(([^)]+)\)`: the list of
(alt text, URL) capture pairs. -/
def mdFindAll (l : List Char) : List (List Char × List Char) :=
  mdFindAllGo (l.length + 1) l

/-- The tail of the HTML image regex after `src=`:
`["\']([^"\']+)["\'][^>]*>` — an opening quote, a nonempty capture up to
the next quote character, that quote, then skip to and consume the next
`>`.  Returns the capture and the remainder. -/
def quotedSrcMatch (m : List Char) : Option (List Char × List Char) :=
  match m with
  | q :: rest =>
    if q = '"' || q = '\x27' then
      let c := rest.takeWhile (fun ch => ch ≠ '"' && ch ≠ '\x27')
      match c, rest.dropWhile (fun ch => ch ≠ '"' && ch ≠ '\x27') with
      | _ :: _, _ :: r2 =>
        match r2.dropWhile (· ≠ '>') with
        | '>' :: rem => some (c, rem)
        | _ => none
      | _, _ => none
    else none
  | [] => none

/-- One attempt of `<img[^>]+src=["\']([^"\']+)["\'][^>]*>` at the head of
the input.  The greedy `[^>]+` with backtracking selects the *last*
occurrence of `src=` (at offset ≥ 1 inside the run of non-`>` characters
after `<img`) whose tail matches `quotedSrcMatch`. -/
def htmlTryMatch (l : List Char) : Option (List Char × List Char) :=
  if "<img".data.isPrefixOf l then
    let body := l.drop 4
    let maxK := (body.takeWhile (· ≠ '>')).length
    ((List.range (maxK + 1)).reverse.filter (fun k => decide (1 ≤ k))).findSome?
      (fun k =>
        if "src=".data.isPrefixOf (body.drop k) then
          quotedSrcMatch (body.drop (k + 4))
        else none)
  else none

/-- Model of `re.findall` for the HTML image pattern (one capture group, so each
match contributes the captured URL string). -/
def htmlFindAllGo : Nat → List Char → List (List Char)
  | 0, _ => []
  | _ + 1, [] => []
  | fuel + 1, c :: rest =>
    match htmlTryMatch (c :: rest) with
    | some (url, rem) => url :: htmlFindAllGo fuel rem
    | none => htmlFindAllGo fuel rest

/-- Model of `re.findall` with the HTML image pattern. -/
def htmlFindAll (l : List Char) : List (List Char) :=
  htmlFindAllGo (l.length + 1) l

/-- The loop body of `extract_and_download_images` for one markdown match
(a 2-tuple in Python, so `len(match) == 2` holds): download the stripped
URL and, on success, replace every occurrence of the original reference
text by one using the local path. -/
def mdStep (md5hex8 : String → String) (fetch : String → Option FetchResponse)
    (acc : String × DownloaderState) (m : List Char × List Char) :
    String × DownloaderState :=
  let r := downloadImage md5hex8 fetch acc.2 (pyStrip ⟨m.2⟩)
  match r.1 with
  | none => (acc.1, r.2)
  | some p =>
    (pyReplace acc.1 ("![" ++ (⟨m.1⟩ : String) ++ "](" ++ (⟨m.2⟩ : String) ++ ")")
      ("![" ++ (⟨m.1⟩ : String) ++ "](" ++ p ++ ")"), r.2)

/-- The loop body of `extract_and_download_images` for one HTML match.
Python's `re.findall` returns plain strings for a single-group pattern, so
the source's `len(match) == 2` / `len(match) == 1` tests compare the
*length of the captured URL string*: a 2-character URL is unpacked into
two 1-character strings and handled as a markdown pair, a 1-character URL
is handled as an HTML `src` rewrite, and every longer URL is silently
skipped. -/
def htmlStep (md5hex8 : String → String) (fetch : String → Option FetchResponse)
    (acc : String × DownloaderState) (u : List Char) :
    String × DownloaderState :=
  match u with
  | [a, b] =>
    let r := downloadImage md5hex8 fetch acc.2 (pyStrip ⟨[b]⟩)
    match r.1 with
    | none => (acc.1, r.2)
    | some p =>
      (pyReplace acc.1 ("![" ++ (⟨[a]⟩ : String) ++ "](" ++ (⟨[b]⟩ : String) ++ ")")
        ("![" ++ (⟨[a]⟩ : String) ++ "](" ++ p ++ ")"), r.2)
  | [a] =>
    let r := downloadImage md5hex8 fetch acc.2 (pyStrip ⟨[a]⟩)
    match r.1 with
    | none => (acc.1, r.2)
    | some p =>
      let c1 := pyReplace acc.1 ("src=\"" ++ (⟨[a]⟩ : String) ++ "\"")
        ("src=\"" ++ p ++ "\"")
      (pyReplace c1 ("src=\x27" ++ (⟨[a]⟩ : String) ++ "\x27")
        ("src=\x27" ++ p ++ "\x27"), r.2)
  | _ => acc

/-- Model of `ImageDownloader.extract_and_download_images`: empty content is
returned untouched; otherwise the markdown matches of the original content
are processed, then the HTML matches of the (already modified) content. -/
def extractAndDownloadImages (md5hex8 : String → String)
    (fetch : String → Option FetchResponse)
    (st : DownloaderState) (content : String) : String × DownloaderState :=
  if content.data.isEmpty then (content, st)
  else
    let r1 := (mdFindAll content.data).foldl (mdStep md5hex8 fetch) (content, st)
    (htmlFindAll r1.1.data).foldl (htmlStep md5hex8 fetch) r1

/-- The possible outcomes of the HTTP exchange in
`JuejinAPI.get_section_content`: a transport-level failure (network error
or `raise_for_status`, both `requests.RequestException`), a well-formed
JSON reply carrying `err_no` / `err_msg` / optionally
`data.section.markdown_show`, or a reply whose body fails JSON decoding
(which raises outside `except requests.RequestException`). -/
inductive SectionApiReply where
  | transportError
  | reply (errNo : Int) (errMsg : String) (markdownShow : Option String)
  | malformed
deriving DecidableEq

/-- Model of `JuejinAPI.get_section_content`: transport failures are logged and
downgraded to `None`; a reply with `err_no != 0` is logged and downgraded
to `None`; a successful reply yields `markdown_show` (defaulting to the empty string);
a JSON-decode fault propagates as an exception. -/
def getSectionContent : SectionApiReply → Except Unit (Option String)
  | .transportError => .ok none
  | .reply errNo _ md => if errNo = 0 then .ok (some (md.getD "")) else .ok none
  | .malformed => .error ()

/-- How the `as_completed` collection loop in `scrape_booklet` turns one
task's outcome into the stored result: a task that raised is caught and
stored as `None`. -/
def resolveOutcome : Except Unit (Option String) → Option String
  | .ok v => v
  | .error _ => none

/-- One iteration of the `as_completed` loop: `results[title] = content`
on the Python dict `results`, modelled as a function update. -/
def collectStep (outcome : String × String → Except Unit (Option String))
    (m : String → Option String) (it : String × String) : String → Option String :=
  Function.update m it.1 (resolveOutcome (outcome it))

/-- The `results` mapping after the `as_completed` loop has consumed every
future, in the (arbitrary) completion order `completion`.  A title that was
never stored reads back as `none`, matching `results.get(title)`. -/
def collectResults (completion : List (String × String))
    (outcome : String × String → Except Unit (Option String)) :
    String → Option String :=
  completion.foldl (collectStep outcome) (fun _ => none)

/-- The ordered (title, body) sequence the final write loop of
`scrape_booklet` walks: the original `section_items` order, each title
looked up in `results`. -/
def assembleResults (items : List (String × String))
    (m : String → Option String) : List (String × Option String) :=
  items.map (fun it => (it.1, m it.1))

/-- Python truthiness of the `content` variable (`None` and the empty string are
falsy). -/
def pyTruthy : Option String → Bool
  | none => false
  | some s => !s.data.isEmpty

/-- The `success_count` accumulated by the final write loop. -/
def successCount (items : List (String × String))
    (m : String → Option String) : Nat :=
  items.foldl (fun n it => if pyTruthy (m it.1) then n + 1 else n) 0

/-- The placeholder written for a chapter whose body is unavailable. -/
def placeholder : String := "*此章节内容获取失败*\n"

/-- Model of `BookletScraper._write_section_to_single_file`: localize the images of
a truthy body when a downloader is configured (`useImg`), then append the
optional auto title, the body or the failure placeholder, and a trailing
blank line.  Returns the appended text and the downloader state. -/
def sectionSingle (md5hex8 : String → String)
    (fetch : String → Option FetchResponse) (autoTitle useImg : Bool)
    (title : String) (content : Option String) (st : DownloaderState) :
    String × DownloaderState :=
  let processed : Option String × DownloaderState :=
    match content with
    | some c =>
      if !c.data.isEmpty && useImg then
        let r := extractAndDownloadImages md5hex8 fetch st c
        (some r.1, r.2)
      else (some c, st)
    | none => (none, st)
  let body :=
    match processed.1 with
    | some c => if c.data.isEmpty then placeholder else c
    | none => placeholder
  ((if autoTitle then "\n\n# " ++ title ++ "\n\n" else "") ++ body ++ "\n\n",
    processed.2)

/-- Model of `BookletScraper._write_section_to_separate_file`: same localization,
then one file named `{index:03d}_{sanitized title}.md` whose content is a
title header followed by the body or the failure placeholder.  Returns
(file name, file content) and the downloader state. -/
def sectionSeparate (md5hex8 : String → String)
    (fetch : String → Option FetchResponse) (useImg : Bool) (index : Nat)
    (title : String) (content : Option String) (st : DownloaderState) :
    (String × String) × DownloaderState :=
  let processed : Option String × DownloaderState :=
    match content with
    | some c =>
      if !c.data.isEmpty && useImg then
        let r := extractAndDownloadImages md5hex8 fetch st c
        (some r.1, r.2)
      else (some c, st)
    | none => (none, st)
  let body :=
    match processed.1 with
    | some c => if c.data.isEmpty then placeholder else c
    | none => placeholder
  ((separateFileName index title, "# " ++ title ++ "\n\n" ++ body),
    processed.2)

/-- One iteration of the single-file write loop. -/
def stepSingle (md5hex8 : String → String)
    (fetch : String → Option FetchResponse) (autoTitle useImg : Bool)
    (m : String → Option String) (acc : List String × DownloaderState)
    (it : String × String) : List String × DownloaderState :=
  let r := sectionSingle md5hex8 fetch autoTitle useImg it.1 (m it.1) acc.2
  (acc.1 ++ [r.1], r.2)

/-- The per-chapter texts appended to the single output file by the final
write loop, in `section_items` order, threading the downloader state. -/
def singleSections (md5hex8 : String → String)
    (fetch : String → Option FetchResponse) (autoTitle useImg : Bool)
    (items : List (String × String)) (m : String → Option String)
    (st : DownloaderState) : List String × DownloaderState :=
  items.foldl (stepSingle md5hex8 fetch autoTitle useImg m) ([], st)

/-- One iteration of the multi-file write loop (`p.1` is the 0-based
position, the file index is `p.1 + 1` as in `enumerate(..., 1)`). -/
def stepMulti (md5hex8 : String → String)
    (fetch : String → Option FetchResponse) (useImg : Bool)
    (m : String → Option String)
    (acc : List (String × String) × DownloaderState)
    (p : Nat × String × String) : List (String × String) × DownloaderState :=
  let r := sectionSeparate md5hex8 fetch useImg (p.1 + 1) p.2.1 (m p.2.1) acc.2
  (acc.1 ++ [r.1], r.2)

/-- The (file name, file content) pairs written in multi-file mode, in
`section_items` order. -/
def multiFiles (md5hex8 : String → String)
    (fetch : String → Option FetchResponse) (useImg : Bool)
    (items : List (String × String)) (m : String → Option String)
    (st : DownloaderState) : List (String × String) × DownloaderState :=
  items.enum.foldl (stepMulti md5hex8 fetch useImg m) ([], st)

/-- The numbered table-of-contents lines written by
`_write_single_file_header` (`f"{i}. {title}\n"` for
`enumerate(sections.keys(), 1)`). -/
def tocEntries (items : List (String × String)) : List String :=
  items.enum.map (fun p => toString (p.1 + 1) ++ ". " ++ p.2.1 ++ "\n")

/-- The table-of-contents block as one string. -/
def tocLines (items : List (String × String)) : String :=
  String.join (tocEntries items)

/-- Model of `BookletScraper._write_single_file_header`. -/
def singleFileHeader (bookTitle bookId timestamp : String)
    (items : List (String × String)) : String :=
  "# " ++ bookTitle ++ "\n\n" ++ "**小册ID**: " ++ bookId ++ "\n\n" ++
  "**生成时间**: " ++ timestamp ++ "\n\n" ++ "**章节总数**: " ++
  toString items.length ++ "\n\n" ++ "---\n\n" ++ "## 目录\n\n" ++
  tocLines items ++ "\n---\n"

/-- The directory (multi-file mode) or file stem (single-file mode) derived
from the booklet title by `_prepare_output_structure`. -/
def outputName (bookTitle : String) : String :=
  sanitizeFilename bookTitle

/-- Model of `BookletScraper.getBookList`: all shelved booklets in `auto_all` mode,
otherwise just the configured one. -/
def getBookList (autoAll : Bool) (shelf : List String) (bookId : String) :
    List String :=
  if autoAll then shelf else [bookId]

/-- The booklets actually scraped by `main`'s loop: each identifier is
skipped exactly when `book_id in scraper.config.exclude`, i.e. when it is
literally equal to an exclusion entry. -/
def processedBooklets (bookIds exclude : List String) : List String :=
  bookIds.filter (fun b => !(exclude.contains b))

/-! ## Pipeline lemmas -/

theorem collectFold_not_mem (c : List (String × String))
    (outcome : String × String → Except Unit (Option String))
    (m : String → Option String) (t : String) (h : t ∉ c.map Prod.fst) :
    c.foldl (collectStep outcome) m t = m t := by
  induction c generalizing m with
  | nil => rfl
  | cons x xs ih =>
    simp only [List.map_cons, List.mem_cons, not_or] at h
    rw [List.foldl_cons, ih _ h.2]
    simp [collectStep, Function.update_noteq h.1]

theorem collectFold_mem (c : List (String × String))
    (outcome : String × String → Except Unit (Option String))
    (m : String → Option String) (it : String × String) (hmem : it ∈ c)
    (hnd : (c.map Prod.fst).Nodup) :
    c.foldl (collectStep outcome) m it.1 = resolveOutcome (outcome it) := by
  induction c generalizing m with
  | nil => cases hmem
  | cons x xs ih =>
    simp only [List.map_cons, List.nodup_cons] at hnd
    rw [List.foldl_cons]
    rcases List.mem_cons.mp hmem with h | h
    · subst h
      rw [collectFold_not_mem xs outcome _ it.1 hnd.1]
      simp [collectStep, Function.update_same]
    · exact ih _ h hnd.2

/-- The scatter/gather order restoration: when the completion order is any
permutation of the (title-unique) item list, walking the original item
order and reading the collected results yields exactly the per-item
outcomes, in input order. -/
theorem pipeline_eq (items completion : List (String × String))
    (outcome : String × String → Except Unit (Option String))
    (hnd : (items.map Prod.fst).Nodup) (hperm : completion.Perm items) :
    assembleResults items (collectResults completion outcome) =
      items.map (fun it => (it.1, resolveOutcome (outcome it))) := by
  unfold assembleResults
  apply List.map_congr_left
  intro it hit
  have hmem : it ∈ completion := hperm.mem_iff.mpr hit
  have hndc : (completion.map Prod.fst).Nodup :=
    ((hperm.map Prod.fst).nodup_iff).mpr hnd
  have h := collectFold_mem completion outcome (fun _ => none) it hmem hndc
  unfold collectResults
  rw [h]

theorem pyDictInsert_keys {α : Type} (d : List (String × α)) (kv : String × α) :
    (pyDictInsert d kv).map Prod.fst =
      if d.any (fun p => p.1 == kv.1) then d.map Prod.fst
      else d.map Prod.fst ++ [kv.1] := by
  unfold pyDictInsert
  split
  · rw [List.map_map]
    apply List.map_congr_left
    intro p _
    by_cases h : p.1 = kv.1 <;> simp [h]
  · simp

theorem pyDictOf_keys_nodup {α : Type} (l : List (String × α)) :
    ((pyDictOf l).map Prod.fst).Nodup := by
  suffices h : ∀ (l : List (String × α)) (d : List (String × α)),
      ((d.map Prod.fst).Nodup) → (((l.foldl pyDictInsert d).map Prod.fst).Nodup) by
    exact h l [] (by simp)
  intro l
  induction l with
  | nil => intro d hd; exact hd
  | cons kv l ih =>
    intro d hd
    rw [List.foldl_cons]
    apply ih
    rw [pyDictInsert_keys]
    split
    · exact hd
    · rename_i hany
      rw [List.any_eq_true] at hany
      push_neg at hany
      simp only [List.nodup_append, List.nodup_cons]
      refine ⟨hd, by simp, ?_⟩
      intro t ht hts
      simp only [List.mem_singleton] at hts
      subst hts
      rcases List.mem_map.mp ht with ⟨p, hp, hpt⟩
      exact hany p hp (by simp [hpt])

/-- C1: for every chapter list returned by the chapter-listing call (the
title-keyed dict built by `get_booklet_sections`), the fetch-and-assemble
pipeline produces exactly as many chapter entries as the list and in the
same order, whatever the completion order of the concurrent fetches. -/
theorem fetchAll_preserves_order (raw completion : List (String × String))
    (outcome : String × String → Except Unit (Option String))
    (hperm : completion.Perm (pyDictOf raw)) :
    assembleResults (pyDictOf raw) (collectResults completion outcome) =
      (pyDictOf raw).map (fun it => (it.1, resolveOutcome (outcome it))) ∧
    (assembleResults (pyDictOf raw) (collectResults completion outcome)).length =
      (pyDictOf raw).length ∧
    (assembleResults (pyDictOf raw) (collectResults completion outcome)).map
        Prod.fst = (pyDictOf raw).map Prod.fst := by
  have h := pipeline_eq (pyDictOf raw) completion outcome (pyDictOf_keys_nodup raw) hperm
  refine ⟨h, ?_, ?_⟩
  · rw [h, List.length_map]
  · rw [h, List.map_map]
    rfl

theorem fetchAll_preserves_order_witness :
    assembleResults (pyDictOf [("a", "1"), ("b", "2")])
      (collectResults [("b", "2"), ("a", "1")]
        (fun it => Except.ok (some it.2))) =
      [("a", some "1"), ("b", some "2")] := by
  have h := (fetchAll_preserves_order [("a", "1"), ("b", "2")]
    [("b", "2"), ("a", "1")] (fun it => Except.ok (some it.2)) (by decide)).1
  rw [h]
  decide

/-! ## Single-file assembly lemmas -/

theorem singleSections_fold_length (md5hex8 : String → String)
    (fetch : String → Option FetchResponse) (autoTitle useImg : Bool)
    (m : String → Option String) (items : List (String × String))
    (p : List String × DownloaderState) :
    ((items.foldl (stepSingle md5hex8 fetch autoTitle useImg m) p).1).length =
      p.1.length + items.length := by
  induction items generalizing p with
  | nil => simp
  | cons x xs ih =>
    rw [List.foldl_cons, ih]
    simp [stepSingle]
    omega

/-- C3: a chapter whose fetched body is `none` is rendered as an explicit
placeholder entry (never skipped), the body list stays index-aligned with
the chapter list, the table of contents has exactly the chapters' numbered
titles, and in the 3-chapter scenario with chapter 2 failing the output has
3 entries, chapter 2's body is the placeholder, and the summary counts 2
of 3 successes. -/
theorem singleFile_placeholder_alignment :
    (∀ (md5hex8 : String → String) (fetch : String → Option FetchResponse)
        (autoTitle useImg : Bool) (title : String) (st : DownloaderState),
      sectionSingle md5hex8 fetch autoTitle useImg title none st =
        ((if autoTitle then "\n\n# " ++ title ++ "\n\n" else "") ++
          placeholder ++ "\n\n", st)) ∧
    (∀ (md5hex8 : String → String) (fetch : String → Option FetchResponse)
        (autoTitle useImg : Bool) (items : List (String × String))
        (m : String → Option String) (st : DownloaderState),
      ((singleSections md5hex8 fetch autoTitle useImg items m st).1).length =
        items.length) ∧
    (∀ (items : List (String × String)) (i : Nat),
      (tocEntries items).get? i =
        (items.get? i).map (fun it => toString (i + 1) ++ ". " ++ it.1 ++ "\n")) ∧
    (let items := [("A", "s1"), ("B", "s2"), ("C", "s3")]
     let outcome := fun it : String × String =>
       getSectionContent (if it.2 = "s2" then SectionApiReply.reply 1 "err" none
         else SectionApiReply.reply 0 "" (some ("body_" ++ it.2)))
     let m := collectResults items.reverse outcome
     (singleSections (fun _ => "") (fun _ => none) true false items m
         initDownloader).1 =
       ["\n\n# A\n\nbody_s1\n\n", "\n\n# B\n\n" ++ placeholder ++ "\n\n",
        "\n\n# C\n\nbody_s3\n\n"] ∧
     tocLines items = "1. A\n2. B\n3. C\n" ∧
     successCount items m = 2 ∧ items.length = 3) := by
  refine ⟨fun _ _ _ _ _ _ => rfl, ?_, ?_, by decide⟩
  · intro md5hex8 fetch autoTitle useImg items m st
    unfold singleSections
    rw [singleSections_fold_length]
    simp
  · intro items i
    unfold tocEntries
    rw [List.get?_map, List.enum_get?]
    cases items.get? i <;> rfl

/-- C10 (implicit): a chapter fetch that succeeds with an empty-string body
is indistinguishable in the output from a failed fetch — both single-file
and multi-file writers render the failure placeholder for it, and the run
summary does not count it as a success. -/
theorem emptyBody_treated_as_failure :
    (∀ (md5hex8 : String → String) (fetch : String → Option FetchResponse)
        (autoTitle useImg : Bool) (title : String) (st : DownloaderState),
      sectionSingle md5hex8 fetch autoTitle useImg title (some "") st =
        sectionSingle md5hex8 fetch autoTitle useImg title none st) ∧
    (∀ (md5hex8 : String → String) (fetch : String → Option FetchResponse)
        (useImg : Bool) (index : Nat) (title : String) (st : DownloaderState),
      sectionSeparate md5hex8 fetch useImg index title (some "") st =
        sectionSeparate md5hex8 fetch useImg index title none st) ∧
    pyTruthy (some "") = pyTruthy none ∧
    successCount [("t", "s")] (fun _ => some "") = 0 :=
  ⟨fun _ _ _ _ _ _ => rfl, fun _ _ _ _ _ _ => rfl, rfl, rfl⟩

/-- C4: `get_section_content` returns `none` (not an error) both for a
per-resource non-success status and for a transport failure; a task that
raises an unexpected fault is caught by the collection loop and downgraded
to a `none` body; and, by the order-restoration equality, every other
chapter's entry is exactly its own outcome, so one task's fault never
perturbs its siblings or aborts the assembled run. -/
theorem sectionFetch_downgrades_failures :
    getSectionContent SectionApiReply.transportError = Except.ok none ∧
    (∀ (errNo : Int) (msg : String) (md : Option String), errNo ≠ 0 →
      getSectionContent (SectionApiReply.reply errNo msg md) = Except.ok none) ∧
    resolveOutcome (Except.error ()) = none ∧
    (∀ (items completion : List (String × String))
        (outcome : String × String → Except Unit (Option String))
        (it : String × String),
      (items.map Prod.fst).Nodup → completion.Perm items → it ∈ items →
      outcome it = Except.error () →
      assembleResults items (collectResults completion outcome) =
        items.map (fun x => (x.1, resolveOutcome (outcome x))) ∧
      (it.1, (none : Option String)) ∈
        assembleResults items (collectResults completion outcome)) := by
  refine ⟨rfl, ?_, rfl, ?_⟩
  · intro errNo msg md h
    simp [getSectionContent, h]
  · intro items completion outcome it hnd hperm hit hfault
    have h := pipeline_eq items completion outcome hnd hperm
    refine ⟨h, ?_⟩
    rw [h]
    have : (it.1, (none : Option String)) =
        (fun x : String × String => (x.1, resolveOutcome (outcome x))) it := by
      simp [hfault, resolveOutcome]
    rw [this]
    exact List.mem_map_of_mem _ hit

theorem sectionFetch_downgrades_failures_witness :
    getSectionContent (SectionApiReply.reply 1 "forbidden" none) = Except.ok none ∧
    (("a", (none : Option String)) ∈
      assembleResults [("a", "1")]
        (collectResults [("a", "1")] (fun _ => Except.error ()))) := by
  refine ⟨sectionFetch_downgrades_failures.2.1 1 "forbidden" none (by decide), ?_⟩
  exact (sectionFetch_downgrades_failures.2.2.2 [("a", "1")] [("a", "1")]
    (fun _ => Except.error ()) ("a", "1") (by decide) (by decide) (by decide)
    rfl).2

/-! ## Image localizer claims -/

/-- C2 (code bug): the per-run dedup invariant fails on the code.  A
site-relative URL repeated twice is downloaded twice, because the cache is
read with the raw URL but written under the resolved URL; and an HTML
`<img src="…">` reference is neither downloaded nor rewritten when its URL
is longer than one character, because `re.findall` with a single-group
pattern yields strings whose *length* the source compares against 2 and 1. -/
theorem imageDedup_bug_eval :
    ((extractAndDownloadImages (fun _ => "h")
        (fun u => if u = "https://juejin.cn/x.png" then
          some ⟨"image/png"⟩ else none)
        initDownloader "![a](x.png)![a](x.png)").2.downloads =
      ["https://juejin.cn/x.png", "https://juejin.cn/x.png"]) ∧
    ((extractAndDownloadImages (fun _ => "h") (fun _ => some ⟨"image/png"⟩)
        initDownloader "<img src=\"http://h/i.png\">") =
      ("<img src=\"http://h/i.png\">", initDownloader)) := by
  constructor <;> decide

/-- C5 counterexample: re-running the localizer on an already-localized
document is *not* a no-op in general — the local relative path is resolved
against the site base and fetched; when that fetch succeeds, a download is
recorded and the reference is rewritten, changing the document. -/
theorem localize_not_idempotent_cex :
    ((extractAndDownloadImages (fun _ => "h2")
        (fun u => if u = "https://juejin.cn/img/image_h.png" then
          some ⟨"image/png"⟩ else none)
        initDownloader "![a](img/image_h.png)").2.downloads.length = 1) ∧
    ((extractAndDownloadImages (fun _ => "h2")
        (fun u => if u = "https://juejin.cn/img/image_h.png" then
          some ⟨"image/png"⟩ else none)
        initDownloader "![a](img/image_h.png)").1 ≠
      "![a](img/image_h.png)") := by
  constructor <;> decide

theorem mdFold_all_fail (md5hex8 : String → String)
    (fetch : String → Option FetchResponse)
    (ms : List (List Char × List Char)) :
    ∀ (content : String) (st : DownloaderState),
      st.downloadedImages = [] →
      (∀ p ∈ ms, fetch (resolveUrl (pyStrip ⟨p.2⟩)) = none) →
      ((ms.foldl (mdStep md5hex8 fetch) (content, st)).1 = content ∧
       (ms.foldl (mdStep md5hex8 fetch) (content, st)).2.downloadedImages = [] ∧
       (ms.foldl (mdStep md5hex8 fetch) (content, st)).2.downloads = st.downloads) := by
  induction ms with
  | nil => intro content st h1 _; exact ⟨rfl, h1, rfl⟩
  | cons p ps ih =>
    intro content st h1 h2
    have hstep : mdStep md5hex8 fetch (content, st) p =
        (content,
          { st with warnings := st.warnings ++ [resolveUrl (pyStrip ⟨p.2⟩)] }) := by
      unfold mdStep downloadImage
      rw [h1]
      simp [dictGet, h2 p (List.mem_cons_self p ps)]
    rw [List.foldl_cons, hstep]
    exact ih content _ h1 (fun q hq => h2 q (List.mem_cons_of_mem p hq))

theorem htmlStep_fail (md5hex8 : String → String)
    (fetch : String → Option FetchResponse) (content : String)
    (st : DownloaderState) (u : List Char) (h1 : st.downloadedImages = [])
    (h2 : ∀ c ∈ u, fetch (resolveUrl (pyStrip ⟨[c]⟩)) = none) :
    (htmlStep md5hex8 fetch (content, st) u).1 = content ∧
    (htmlStep md5hex8 fetch (content, st) u).2.downloadedImages = [] ∧
    (htmlStep md5hex8 fetch (content, st) u).2.downloads = st.downloads := by
  rcases u with _ | ⟨a, _ | ⟨b, _ | ⟨c, rest⟩⟩⟩
  · exact ⟨rfl, h1, rfl⟩
  · have ha := h2 a (by simp)
    unfold htmlStep downloadImage
    rw [h1]
    simp [dictGet, ha]
  · have hb := h2 b (by simp)
    unfold htmlStep downloadImage
    rw [h1]
    simp [dictGet, hb]
  · exact ⟨rfl, h1, rfl⟩

theorem htmlFold_all_fail (md5hex8 : String → String)
    (fetch : String → Option FetchResponse) (ms : List (List Char)) :
    ∀ (content : String) (st : DownloaderState),
      st.downloadedImages = [] →
      (∀ u ∈ ms, ∀ c ∈ u, fetch (resolveUrl (pyStrip ⟨[c]⟩)) = none) →
      ((ms.foldl (htmlStep md5hex8 fetch) (content, st)).1 = content ∧
       (ms.foldl (htmlStep md5hex8 fetch) (content, st)).2.downloadedImages = [] ∧
       (ms.foldl (htmlStep md5hex8 fetch) (content, st)).2.downloads = st.downloads) := by
  induction ms with
  | nil => intro content st h1 _; exact ⟨rfl, h1, rfl⟩
  | cons u us ih =>
    intro content st h1 h2
    have hstep := htmlStep_fail md5hex8 fetch content st u h1
      (h2 u (List.mem_cons_self u us))
    rw [List.foldl_cons]
    have heta : htmlStep md5hex8 fetch (content, st) u =
        ((htmlStep md5hex8 fetch (content, st) u).1,
          (htmlStep md5hex8 fetch (content, st) u).2) := rfl
    rw [heta, hstep.1]
    have := ih content ((htmlStep md5hex8 fetch (content, st) u).2) hstep.2.1
      (fun v hv => h2 v (List.mem_cons_of_mem u hv))
    exact ⟨this.1, this.2.1, this.2.2.trans hstep.2.2⟩

/-- C5 amended: when every image reference of the document resolves to a
URL whose fetch fails (in particular the base-resolved local paths of an
already-localized document, on a fresh per-run cache), the localizer
returns the document unchanged and records no download — though it still
attempts one request per reference occurrence rather than skipping local
paths. -/
theorem localize_noop_on_fetch_failure (md5hex8 : String → String)
    (fetch : String → Option FetchResponse) (st : DownloaderState)
    (doc : String) (h1 : st.downloadedImages = [])
    (hmd : ∀ p ∈ mdFindAll doc.data, fetch (resolveUrl (pyStrip ⟨p.2⟩)) = none)
    (hhtml : ∀ u ∈ htmlFindAll doc.data, ∀ c ∈ u,
      fetch (resolveUrl (pyStrip ⟨[c]⟩)) = none) :
    (extractAndDownloadImages md5hex8 fetch st doc).1 = doc ∧
    (extractAndDownloadImages md5hex8 fetch st doc).2.downloads = st.downloads := by
  unfold extractAndDownloadImages
  cases hd : doc.data.isEmpty with
  | true => simp
  | false =>
    simp only [Bool.false_eq_true, if_false]
    have hm := mdFold_all_fail md5hex8 fetch (mdFindAll doc.data) doc st h1 hmd
    set r1 := (mdFindAll doc.data).foldl (mdStep md5hex8 fetch) (doc, st) with hr1
    have heta : r1 = (r1.1, r1.2) := rfl
    rw [heta, hm.1]
    have hh := htmlFold_all_fail md5hex8 fetch (htmlFindAll doc.data) doc r1.2
      hm.2.1 hhtml
    exact ⟨hh.1, hh.2.2.trans hm.2.2⟩

theorem localize_noop_on_fetch_failure_witness :
    (extractAndDownloadImages (fun _ => "h") (fun _ => none) initDownloader
      "![a](img/image_h.png)").1 = "![a](img/image_h.png)" ∧
    (extractAndDownloadImages (fun _ => "h") (fun _ => none) initDownloader
      "![a](img/image_h.png)").2.downloads = [] := by
  have h := localize_noop_on_fetch_failure (fun _ => "h") (fun _ => none)
    initDownloader "![a](img/image_h.png)" rfl (by decide) (by decide)
  exact ⟨h.1, h.2⟩

/-! ## Sanitization lemmas -/

theorem head?_dropWhile_false {α : Type} (p : α → Bool) (l : List α) :
    ∀ c, (l.dropWhile p).head? = some c → p c = false := by
  induction l with
  | nil => intro c h; cases h
  | cons a as ih =>
    intro c h
    rw [List.dropWhile_cons] at h
    by_cases hpa : p a = true
    · simp only [hpa, if_true] at h
      exact ih c h
    · simp only [hpa, if_false] at h
      cases h
      exact Bool.eq_false_iff.mpr hpa

theorem pyStripList_sublist (l : List Char) : (pyStripList l).Sublist l := by
  unfold pyStripList
  have h1 : ((l.dropWhile pythonIsSpace).reverse.dropWhile pythonIsSpace).reverse.Sublist
      (l.dropWhile pythonIsSpace).reverse.reverse :=
    List.reverse_sublist.mpr (List.dropWhile_sublist pythonIsSpace)
  rw [List.reverse_reverse] at h1
  exact h1.trans (List.dropWhile_sublist pythonIsSpace)

theorem pyStripList_head (l : List Char) (c : Char)
    (h : (pyStripList l).head? = some c) : pythonIsSpace c = false := by
  unfold pyStripList at h
  rw [List.head?_reverse] at h
  obtain ⟨u, hu⟩ := List.dropWhile_suffix (l := (l.dropWhile pythonIsSpace).reverse)
    (p := pythonIsSpace)
  have hy : (l.dropWhile pythonIsSpace).head? = some c := by
    rw [← List.getLast?_reverse, ← hu, List.getLast?_append, h]
    rfl
  exact head?_dropWhile_false pythonIsSpace l c hy

theorem pyStripList_getLast (l : List Char) (c : Char)
    (h : (pyStripList l).getLast? = some c) : pythonIsSpace c = false := by
  unfold pyStripList at h
  rw [List.getLast?_reverse] at h
  exact head?_dropWhile_false pythonIsSpace (l.dropWhile pythonIsSpace).reverse c h

theorem head?_take_pos {α : Type} (l : List α) (n : Nat) (h : 0 < n) :
    (l.take n).head? = l.head? := by
  cases l with
  | nil => simp
  | cons a as =>
    cases n with
    | zero => cases h
    | succ m => rfl

/-- C6 counterexample: the 101-character title `aaa…a b` (99 `a`s, a space,
a `b`) sanitizes to 99 `a`s followed by a space — the strip happens before
the 100-character truncation, so the truncated result ends in whitespace,
contradicting "has no surrounding whitespace". -/
theorem sanitize_trailing_space_cex :
    (sanitizeFilename ⟨List.replicate 99 'a' ++ [' ', 'b']⟩).data.getLast? =
      some ' ' ∧
    pythonIsSpace ' ' = true ∧
    (sanitizeFilename ⟨List.replicate 99 'a' ++ [' ', 'b']⟩).data.length = 100 := by
  refine ⟨by decide, by decide, by decide⟩

theorem replaceIllegal_ok (l : List Char) :
    ∀ c ∈ replaceIllegal l, illegalFilenameChar c = false := by
  intro c hc
  rcases List.mem_map.mp hc with ⟨a, _, ha⟩
  rw [← ha]
  by_cases h : illegalFilenameChar a = true
  · rw [if_pos h]; decide
  · rw [if_neg h]; exact Bool.eq_false_iff.mpr h

theorem sanitizeFilename_data (s : String) :
    (sanitizeFilename s).data =
      (if (pyStripList (replaceIllegal s.data)).isEmpty then "untitled".data
       else if (pyStripList (replaceIllegal s.data)).length > 100
       then (pyStripList (replaceIllegal s.data)).take 100
       else pyStripList (replaceIllegal s.data)) := by
  unfold sanitizeFilename
  by_cases h : (pyStripList (replaceIllegal s.data)).isEmpty = true
  · simp only [h, if_true]
    decide
  · rw [Bool.not_eq_true] at h
    simp [h]

/-- C6 amended: the sanitized filename contains none of the illegal
characters, is non-empty, is at most 100 characters, and never starts with
whitespace; it also never *ends* with whitespace provided the stripped name
is within the 100-character cap — a name longer than the cap is truncated
after stripping, so the cut can expose a trailing space (see the
counterexample). -/
theorem sanitize_spec_amended (s : String) :
    (∀ c ∈ (sanitizeFilename s).data, illegalFilenameChar c = false) ∧
    sanitizeFilename s ≠ "" ∧
    (sanitizeFilename s).data.length ≤ 100 ∧
    (∀ c, (sanitizeFilename s).data.head? = some c → pythonIsSpace c = false) ∧
    ((pyStripList (replaceIllegal s.data)).length ≤ 100 →
      ∀ c, (sanitizeFilename s).data.getLast? = some c →
        pythonIsSpace c = false) := by
  have hsub := pyStripList_sublist (replaceIllegal s.data)
  by_cases hempty : (pyStripList (replaceIllegal s.data)).isEmpty = true
  · have hres : (sanitizeFilename s).data = "untitled".data := by
      rw [sanitizeFilename_data, if_pos hempty]
    refine ⟨?_, ?_, ?_, ?_, ?_⟩
    · rw [hres]; decide
    · intro h
      have := congrArg String.data h
      rw [hres] at this
      cases this
    · rw [hres]; decide
    · rw [hres]; intro c hc
      cases hc; decide
    · rw [hres]; intro _ c hc
      cases hc; decide
  · have hne : pyStripList (replaceIllegal s.data) ≠ [] := by
      intro h
      exact hempty (by rw [h]; rfl)
    by_cases hlen : (pyStripList (replaceIllegal s.data)).length > 100
    · have hres : (sanitizeFilename s).data =
          (pyStripList (replaceIllegal s.data)).take 100 := by
        rw [sanitizeFilename_data, if_neg hempty, if_pos hlen]
      refine ⟨?_, ?_, ?_, ?_, ?_⟩
      · rw [hres]
        intro c hc
        exact replaceIllegal_ok s.data c
          (hsub.subset (List.take_subset 100 _ hc))
      · intro h
        have hd := congrArg String.data h
        rw [hres] at hd
        have hl := congrArg List.length hd
        rw [List.length_take] at hl
        have h0 : ("" : String).data.length = 0 := rfl
        rw [h0] at hl
        omega
      · rw [hres, List.length_take]
        omega
      · rw [hres, head?_take_pos _ 100 (by omega)]
        exact pyStripList_head (replaceIllegal s.data)
      · intro hcap
        omega
    · have hres : (sanitizeFilename s).data =
          pyStripList (replaceIllegal s.data) := by
        rw [sanitizeFilename_data, if_neg hempty, if_neg hlen]
      refine ⟨?_, ?_, ?_, ?_, ?_⟩
      · rw [hres]
        intro c hc
        exact replaceIllegal_ok s.data c (hsub.subset hc)
      · intro h
        have hd := congrArg String.data h
        rw [hres] at hd
        exact hne hd
      · rw [hres]; omega
      · rw [hres]
        exact pyStripList_head (replaceIllegal s.data)
      · rw [hres]
        intro _
        exact pyStripList_getLast (replaceIllegal s.data)

theorem sanitize_spec_amended_witness :
    illegalFilenameChar 'a' = false ∧ sanitizeFilename " a<b " ≠ "" ∧
    pythonIsSpace 'a' = false ∧ pythonIsSpace 'b' = false := by
  have h := sanitize_spec_amended " a<b "
  refine ⟨h.1 'a' (by decide), h.2.1, h.2.2.2.1 'a' (by decide),
    h.2.2.2.2 (by decide) 'b' (by decide)⟩

/-! ## Multi-file naming lemmas -/

theorem digitChar_strictMono :
    ∀ a, a < 10 → ∀ b, b < 10 → a < b → Nat.digitChar a < Nat.digitChar b := by
  decide

theorem pad3_data (n : Nat) (h : n < 1000) :
    (pad3 n).data =
      [Nat.digitChar (n / 100), Nat.digitChar (n / 10 % 10),
       Nat.digitChar (n % 10)] := by
  unfold pad3
  rw [if_pos h]

theorem threeDigit_lex (a1 a2 a3 b1 b2 b3 : Nat) (r1 r2 : List Char)
    (ha1 : a1 < 10) (hb1 : b1 < 10) (ha2 : a2 < 10) (hb2 : b2 < 10)
    (ha3 : a3 < 10) (hb3 : b3 < 10)
    (h : a1 < b1 ∨ (a1 = b1 ∧ (a2 < b2 ∨ (a2 = b2 ∧ a3 < b3)))) :
    ([Nat.digitChar a1, Nat.digitChar a2, Nat.digitChar a3] ++ r1) <
      ([Nat.digitChar b1, Nat.digitChar b2, Nat.digitChar b3] ++ r2) := by
  show List.Lex (· < ·) _ _
  rcases h with h1 | ⟨he1, h2 | ⟨he2, h3⟩⟩
  · exact List.Lex.rel (digitChar_strictMono a1 ha1 b1 hb1 h1)
  · subst he1
    exact List.Lex.cons (List.Lex.rel (digitChar_strictMono a2 ha2 b2 hb2 h2))
  · subst he1
    subst he2
    exact List.Lex.cons (List.Lex.cons
      (List.Lex.rel (digitChar_strictMono a3 ha3 b3 hb3 h3)))

/-- Zero-padded three-digit prefixes order file names by index, as long as
both indices stay within three digits. -/
theorem separateFileName_lt (i j : Nat) (t1 t2 : String) (h1 : 1 ≤ i)
    (hij : i < j) (hj : j ≤ 999) :
    (separateFileName i t1).data < (separateFileName j t2).data := by
  have e1 : (separateFileName i t1).data =
      (pad3 i).data ++ ("_" ++ sanitizeFilename t1 ++ ".md").data := by
    simp [separateFileName, List.append_assoc]
  have e2 : (separateFileName j t2).data =
      (pad3 j).data ++ ("_" ++ sanitizeFilename t2 ++ ".md").data := by
    simp [separateFileName, List.append_assoc]
  rw [e1, e2, pad3_data i (by omega), pad3_data j (by omega)]
  exact threeDigit_lex _ _ _ _ _ _ _ _
    (by omega) (by omega) (by omega) (by omega) (by omega) (by omega)
    (by omega)

theorem multiFiles_fold_names (md5hex8 : String → String)
    (fetch : String → Option FetchResponse) (useImg : Bool)
    (m : String → Option String) (ps : List (Nat × String × String)) :
    ∀ (acc : List (String × String) × DownloaderState),
      (((ps.foldl (stepMulti md5hex8 fetch useImg m) acc).1).map Prod.fst) =
        acc.1.map Prod.fst ++ ps.map (fun p => separateFileName (p.1 + 1) p.2.1) := by
  induction ps with
  | nil => intro acc; simp
  | cons p ps ih =>
    intro acc
    rw [List.foldl_cons, ih]
    simp [stepMulti, sectionSeparate]

/-- C7 counterexample: with more than 999 chapters the zero-padded prefix
stops aligning lexical order with presentation order — the file of chapter
1000 sorts strictly before the file of chapter 999. -/
theorem multiFile_order_cex :
    999 < 1000 ∧
    (separateFileName 1000 "t").data < (separateFileName 999 "t").data ∧
    ¬ (separateFileName 999 "t").data < (separateFileName 1000 "t").data := by
  refine ⟨by omega, by decide, by decide⟩

/-- C7 amended: multi-file mode writes exactly one file per chapter, named
with the zero-padded three-digit index and sanitized title, and for
chapter lists of at most 999 chapters the lexicographic order of the file
names equals presentation order.  (Beyond 999 chapters the prefix grows to
four digits and the guarantee fails, see the counterexample.) -/
theorem multiFile_names_ordered :
    (∀ (md5hex8 : String → String) (fetch : String → Option FetchResponse)
        (useImg : Bool) (items : List (String × String))
        (m : String → Option String) (st : DownloaderState),
      (((multiFiles md5hex8 fetch useImg items m st).1).map Prod.fst) =
        items.enum.map (fun p => separateFileName (p.1 + 1) p.2.1) ∧
      ((multiFiles md5hex8 fetch useImg items m st).1).length = items.length) ∧
    (∀ (i j : Nat) (t1 t2 : String), 1 ≤ i → i < j → j ≤ 999 →
      (separateFileName i t1).data < (separateFileName j t2).data) := by
  constructor
  · intro md5hex8 fetch useImg items m st
    have h := multiFiles_fold_names md5hex8 fetch useImg m items.enum ([], st)
    constructor
    · unfold multiFiles
      rw [h]
      simp
    · have hl := congrArg List.length
        ((multiFiles_fold_names md5hex8 fetch useImg m items.enum ([], st)))
      unfold multiFiles
      rw [← List.length_map _ Prod.fst, h]
      simp
  · intro i j t1 t2 h1 hij hj
    exact separateFileName_lt i j t1 t2 h1 hij hj

theorem multiFile_names_ordered_witness :
    (separateFileName 1 "a").data < (separateFileName 12 "b").data ∧
    (((multiFiles (fun _ => "") (fun _ => none) false [("a", "1")]
        (fun _ => none) initDownloader).1).map Prod.fst) = ["001_a.md"] := by
  constructor
  · exact multiFile_names_ordered.2 1 12 "a" "b" (by omega) (by omega) (by omega)
  · rw [(multiFile_names_ordered.1 (fun _ => "") (fun _ => none) false
      [("a", "1")] (fun _ => none) initDownloader).1]
    decide

/-! ## Image failure and exclusion-list claims -/

/-- C8: a failed image download is non-fatal — `download_image` returns
`none` after only recording a warning (the cache and the download log are
untouched), and the localizer loop leaves the document text unchanged for
that reference, so the rest of the chapter's content is unaffected and the
reference keeps pointing at the original URL. -/
theorem imageFailure_nonfatal :
    (∀ (md5hex8 : String → String) (fetch : String → Option FetchResponse)
        (st : DownloaderState) (url : String),
      dictGet st.downloadedImages url = none →
      fetch (resolveUrl url) = none →
      downloadImage md5hex8 fetch st url =
        (none, { st with warnings := st.warnings ++ [resolveUrl url] })) ∧
    (∀ (md5hex8 : String → String) (fetch : String → Option FetchResponse)
        (content : String) (st st' : DownloaderState)
        (m : List Char × List Char),
      downloadImage md5hex8 fetch st (pyStrip ⟨m.2⟩) = (none, st') →
      mdStep md5hex8 fetch (content, st) m = (content, st')) := by
  constructor
  · intro md5hex8 fetch st url h1 h2
    unfold downloadImage
    rw [h1]
    simp [h2]
  · intro md5hex8 fetch content st st' m h
    unfold mdStep
    rw [h]

theorem imageFailure_nonfatal_witness :
    downloadImage (fun _ => "h") (fun _ => none) initDownloader "u" =
      (none, { initDownloader with warnings := ["https://juejin.cn/u"] }) ∧
    mdStep (fun _ => "h") (fun _ => none) ("doc", initDownloader) (['a'], ['u']) =
      ("doc", { initDownloader with warnings := ["https://juejin.cn/u"] }) := by
  constructor
  · exact (imageFailure_nonfatal.1 (fun _ => "h") (fun _ => none)
      initDownloader "u" rfl rfl).trans (by decide)
  · have hd : downloadImage (fun _ => "h") (fun _ => none) initDownloader
        (pyStrip ⟨['u']⟩) =
        (none, { initDownloader with warnings := ["https://juejin.cn/u"] }) := by
      decide
    exact imageFailure_nonfatal.2 (fun _ => "h") (fun _ => none) "doc"
      initDownloader _ (['a'], ['u']) hd

/-- C9: in "process all owned" mode a booklet is skipped iff its raw
identifier is literally equal to an exclusion entry (no whitespace or case
normalization — the whitespace variant `" b "` is *not* excluded by the
entry `"b"`), and with three distinct owned identifiers of which one is
excluded, exactly the other two are processed. -/
theorem exclusion_literal_match :
    (∀ (ids exclude : List String) (b : String), b ∈ ids →
      ((b ∉ processedBooklets ids exclude) ↔ b ∈ exclude)) ∧
    (∀ a b c : String, a ≠ b → c ≠ b →
      processedBooklets [a, b, c] [b] = [a, c] ∧
      (processedBooklets [a, b, c] [b]).length = 2) ∧
    processedBooklets [" b "] ["b"] = [" b "] := by
  refine ⟨?_, ?_, by decide⟩
  · intro ids exclude b hb
    unfold processedBooklets
    constructor
    · intro h
      by_contra hex
      exact h (List.mem_filter.mpr ⟨hb, by simpa using hex⟩)
    · intro hex hmem
      rcases List.mem_filter.mp hmem with ⟨_, hflt⟩
      simp at hflt
      exact hflt hex
  · intro a b c hab hcb
    have h : processedBooklets [a, b, c] [b] = [a, c] := by
      unfold processedBooklets
      simp [hab, hcb]
    exact ⟨h, by rw [h]; rfl⟩

theorem exclusion_literal_match_witness :
    (("b2" ∉ processedBooklets ["b1", "b2", "b3"] ["b2"]) ↔
      "b2" ∈ ["b2"]) ∧
    processedBooklets ["b1", "b2", "b3"] ["b2"] = ["b1", "b3"] ∧
    (processedBooklets ["b1", "b2", "b3"] ["b2"]).length = 2 := by
  refine ⟨exclusion_literal_match.1 ["b1", "b2", "b3"] ["b2"] "b2" (by decide), ?_, ?_⟩
  · exact (exclusion_literal_match.2.1 "b1" "b2" "b3" (by decide) (by decide)).1
  · exact (exclusion_literal_match.2.1 "b1" "b2" "b3" (by decide) (by decide)).2
